import Mathlib

/-!
Formal model of the oca-proxy token lifecycle, PKCE flow, model resolution,
request transcoding and SSE stream transcoding, as implemented in
`src/auth` (TokenManager, PKCE helpers) and `src/index`
(resolveModelMapping, anthropicToOpenAI, streamAnthropicResponse, and the
non-streaming aggregation path of POST /v1/messages).

Conventions of the shallow embedding:

* JavaScript strings are Lean `String`s; the raw byte stream handled by the
  transcoders is modelled as `List Char` so that line splitting can be
  reasoned about structurally.
* JavaScript `undefined`/`null` fields become `Option`; JS truthiness of a
  string (`if (s)`) is `optTruthy` (false for absent and for the empty
  string), truthiness of a number is `≠ 0`, and an object or array is
  always truthy (hence plain `Option.isSome` checks).
* Timestamps (`Date.now()`, `getTime()`) are milliseconds as `Int`.  The JS
  comparison `(expiry - now) / 1000 > 300` uses exact float division of
  integers, which is equivalent to `expiry - now > 300000`; the model uses
  the latter form to avoid truncating integer division.
* External effectful primitives are explicit arguments: randomness becomes
  byte-list arguments, `crypto.createHash("sha256")` becomes an abstract
  `sha256` function argument, the token-endpoint HTTP exchange becomes a
  `RefreshOutcome`/`exchange` argument, and `JSON.parse` of an upstream SSE
  payload becomes a `parse` function argument.  Opaque JSON payloads that
  the code only serializes or copies (tool inputs, schemas) are carried in
  already-serialized `String` form.
* The process is single threaded (Node's event loop): an `async` function
  runs synchronously up to its first `await`.  `TokenManager.getToken`
  performs all of its guard checks and the installation of
  `this.refreshPromise` before any suspension point, so that whole entry
  sequence is one atomic step (`getTokenEntry`); interleaving of concurrent
  callers is modelled as a sequence of such steps (`runEnters`).
-/

/-- JS truthiness of a possibly-absent string: `undefined`, `null` and `""`
are falsy, every other string is truthy. -/
def optTruthy : Option String → Bool
  | some s => s != ""
  | none => false

/-! ## TokenManager (src/auth, class TokenManager) -/

/-- The mutable fields of the `TokenManager` singleton, plus `persisted`,
which models the refresh token held by the external token-storage
collaborator (`saveRefreshToken` / `clearRefreshToken`). `refreshPromise`
holds the identifier of the in-flight refresh promise, if any. -/
structure TMState where
  refreshToken : Option String
  accessToken : Option String
  tokenExpiry : Option Int
  refreshPromise : Option Nat
  persisted : Option String
deriving DecidableEq, Repr

/-- The cached-token check of `getToken`: `this.accessToken &&
this.tokenExpiry` and then `(expiry - now) / 1000 > 300`. -/
def cacheValid (s : TMState) (now : Int) : Bool :=
  match s.accessToken, s.tokenExpiry with
  | some a, some e => a != "" && (300000 < e - now)
  | _, _ => false

/-- How a single synchronous entry into `getToken` can conclude. -/
inductive EntryResult where
  | notAuthenticated
  | cached (token : String)
  | attach (pid : Nat)
  | startRefresh (pid : Nat)
deriving DecidableEq, Repr

/-- One caller's synchronous prefix of `getToken()`: the not-authenticated
throw, the cached-token fast path, attaching to an in-flight
`refreshPromise`, or installing a fresh refresh promise.  All of this runs
before the first suspension point, hence atomically. -/
def getTokenEntry (s : TMState) (now : Int) (freshPid : Nat) : EntryResult × TMState :=
  if !optTruthy s.refreshToken then (.notAuthenticated, s)
  else if cacheValid s now then (.cached (s.accessToken.getD ""), s)
  else
    match s.refreshPromise with
    | some p => (.attach p, s)
    | none => (.startRefresh freshPid, { s with refreshPromise := some freshPid })

/-- Whether an entry step started a new refresh network operation. -/
def isStartRefresh : EntryResult → Bool
  | .startRefresh _ => true
  | _ => false

/-- Run a sequence of concurrent `getToken` entries (one per caller, at the
given times) with no intervening promise resolution.  Returns each caller's
entry result, the final manager state, and the next fresh promise id (the
number of refresh operations started so far). -/
def runEnters : TMState → Nat → List Int → List EntryResult × TMState × Nat
  | s, nextPid, [] => ([], s, nextPid)
  | s, nextPid, t :: ts =>
    let step := getTokenEntry s t nextPid
    let nextPid' := if isStartRefresh step.1 then nextPid + 1 else nextPid
    let rec' := runEnters step.2 nextPid' ts
    (step.1 :: rec'.1, rec'.2)

/-- Payload of a successful token-endpoint refresh response. -/
structure RefreshSuccess where
  access_token : String
  expires_in : Option Int
  refresh_token : Option String
deriving DecidableEq, Repr

/-- Data extracted from a failed refresh attempt: the HTTP status of the
error response (absent for network errors) and the `error` code in its JSON
body, mirroring `err.response?.status` and `err.response?.data?.error`. -/
structure RefreshFailureData where
  status : Option Int
  errorCode : Option String
deriving DecidableEq, Repr

/-- Outcome of the refresh network operation (discovery + token POST). -/
inductive RefreshOutcome where
  | ok (r : RefreshSuccess)
  | fail (f : RefreshFailureData)
deriving DecidableEq, Repr

/-- The error taxonomy of `doRefreshToken`: `authExpired` is the
"Refresh token expired. Please visit /login" error, `refreshFailed` is the
generic "Failed to refresh OCA access token" error. -/
inductive RefreshError where
  | authExpired
  | refreshFailed
deriving DecidableEq, Repr

/-- `TokenManager.clearAuth()`: clears the in-memory token triple and the
persisted refresh token (`clearRefreshToken()`). It does not touch
`refreshPromise`. -/
def clearAuth (s : TMState) : TMState :=
  { s with refreshToken := none, accessToken := none, tokenExpiry := none, persisted := none }

/-- `TokenManager.isAuthenticated()`: `this.refreshToken !== null`. -/
def isAuthenticated (s : TMState) : Bool :=
  s.refreshToken.isSome

/-- The invalid-refresh-token test in the catch block of `doRefreshToken`:
HTTP 400 with body error code `invalid_grant` or `invalid_token`. -/
def isInvalidGrant (f : RefreshFailureData) : Bool :=
  f.status == some 400 &&
    (f.errorCode == some "invalid_grant" || f.errorCode == some "invalid_token")

/-- `TokenManager.doRefreshToken()`, with the network exchange abstracted
into the `outcome` argument.  On success it caches the access token, sets
the expiry to `now + (expires_in || 3600) * 1000`, and rotates (and
persists) the refresh token when a new, different one is returned.  On
failure it clears all auth state exactly when `isInvalidGrant` holds, and
otherwise leaves the state untouched. -/
def doRefreshToken (s : TMState) (now : Int) (outcome : RefreshOutcome) :
    TMState × Except RefreshError String :=
  if !optTruthy s.refreshToken then (s, .error .refreshFailed)
  else
    match outcome with
    | .ok r =>
      let expiresIn : Int :=
        match r.expires_in with
        | some n => if n = 0 then 3600 else n
        | none => 3600
      let s1 := { s with
        accessToken := some r.access_token,
        tokenExpiry := some (now + expiresIn * 1000) }
      let s2 :=
        match r.refresh_token with
        | some nrt =>
          if nrt != "" && some nrt != s.refreshToken then
            { s1 with refreshToken := some nrt, persisted := some nrt }
          else s1
        | none => s1
      (s2, .ok r.access_token)
    | .fail f =>
      if isInvalidGrant f then (clearAuth s, .error .authExpired)
      else (s, .error .refreshFailed)

/-! ## PKCE session store (src/auth, pkceStates and helpers) -/

/-- One stored PKCE session, keyed by its `state` value. -/
structure PkceState where
  code_verifier : String
  nonce : String
  redirect_uri : String
  created_at : Int
deriving DecidableEq, Repr

/-- The in-memory `Map` from state values to PKCE sessions, modelled by its
lookup function. -/
def PkceMap : Type := String → Option PkceState

/-- `getPkceState(state)`: plain map lookup, with no expiry check. -/
def getPkceState (m : PkceMap) (state : String) : Option PkceState :=
  m state

/-- `removePkceState(state)`: map deletion. -/
def removePkceState (m : PkceMap) (state : String) : PkceMap :=
  fun s => if s = state then none else m s

/-- `cleanupExpiredStates()`: deletes every session with
`created_at < Date.now() - 10 * 60 * 1000`. -/
def cleanupExpiredStates (now : Int) (m : PkceMap) : PkceMap :=
  fun s =>
    match m s with
    | some d => if d.created_at < now - 600000 then none else some d
    | none => none

/-- Errors the `/callback` handler can report for the session phase. -/
inductive CallbackError where
  | invalidOrExpiredState
  | exchangeFailed
deriving DecidableEq, Repr

/-- The session-consumption phase of the `GET /callback` handler: look the
session up with `getPkceState`; a missing session is the
invalid-or-expired-state failure; otherwise the session is deleted with
`removePkceState` before the code/token exchange runs, whose result is
abstracted by `exchange`. -/
def consumeCallback {α : Type} (m : PkceMap) (state : String)
    (exchange : PkceState → Except CallbackError α) :
    Except CallbackError α × PkceMap :=
  match getPkceState m state with
  | none => (.error .invalidOrExpiredState, m)
  | some d => (exchange d, removePkceState m state)

/-! ## PKCE value generation (src/auth, generateCodeVerifier and friends) -/

/-- The base64url alphabet used by Node's `toString("base64url")`. -/
def B64URL_ALPHABET : List Char :=
  "ABCDEFGHIJKLMNOPQRSTUVWXYZabcdefghijklmnopqrstuvwxyz0123456789-_".toList

/-- The base64url digit for a 6-bit value. -/
def b64urlChar (n : Nat) : Char :=
  B64URL_ALPHABET.getD n 'A'

/-- Unpadded base64url encoding of a byte list (bytes as `Nat`), as
produced by `Buffer.toString("base64url")`: groups of three bytes become
four digits, a two-byte tail becomes three digits, a one-byte tail becomes
two digits, with no `=` padding. -/
def base64urlEncode : List Nat → List Char
  | [] => []
  | [b1] => [b64urlChar (b1 / 4), b64urlChar (b1 % 4 * 16)]
  | [b1, b2] =>
    [b64urlChar (b1 / 4), b64urlChar (b1 % 4 * 16 + b2 / 16), b64urlChar (b2 % 16 * 4)]
  | b1 :: b2 :: b3 :: rest =>
    b64urlChar (b1 / 4) :: b64urlChar (b1 % 4 * 16 + b2 / 16) ::
      b64urlChar (b2 % 16 * 4 + b3 / 64) :: b64urlChar (b3 % 64) ::
        base64urlEncode rest

/-- `generateCodeVerifier()`: `crypto.randomBytes(96).toString("base64url")`,
with the 96 random bytes passed explicitly. -/
def generateCodeVerifier (randomness : List Nat) : List Char :=
  base64urlEncode randomness

/-- `generateCodeChallenge(verifier)`: base64url of the SHA-256 digest of
the verifier; the hash itself is an external primitive, passed in as
`sha256`. -/
def generateCodeChallenge (sha256 : List Char → List Nat) (verifier : List Char) : List Char :=
  base64urlEncode (sha256 verifier)

/-- `generateRandomString(length = 32)`:
`crypto.randomBytes(length).toString("base64url").slice(0, length)`, with
the random bytes passed explicitly. -/
def generateRandomString (length : Nat) (randomness : List Nat) : List Char :=
  (base64urlEncode randomness).take length

/-- The query parameters of the authorization URL built by
`createAuthUrl(redirectUri)`, in source order, with the three random draws
(96 verifier bytes, 32 state bytes, 32 nonce bytes) passed explicitly. -/
def createAuthUrlParams (sha256 : List Char → List Nat)
    (verifierBytes stateBytes nonceBytes : List Nat)
    (clientId scopes redirectUri : String) : List (String × String) :=
  [("client_id", clientId),
   ("response_type", "code"),
   ("scope", scopes),
   ("redirect_uri", redirectUri),
   ("state", String.mk (generateRandomString 32 stateBytes)),
   ("nonce", String.mk (generateRandomString 32 nonceBytes)),
   ("code_challenge",
     String.mk (generateCodeChallenge sha256 (generateCodeVerifier verifierBytes))),
   ("code_challenge_method", "S256")]

/-! ## Model resolution (src/index, resolveModelMapping) -/

/-- An object-shaped entry of the model mapping table. -/
structure ModelMappingObj where
  target : String
  reasoning_effort : Option String
deriving DecidableEq, Repr

/-- A model mapping entry: either a bare target string or a
`{target, reasoning_effort}` object. -/
inductive MappingEntry where
  | str (s : String)
  | obj (o : ModelMappingObj)
deriving DecidableEq, Repr

/-- The slice of the in-memory proxy configuration consulted by
`resolveModelMapping`; `model_mapping` is modelled by its lookup
function. -/
structure ProxyCfgModel where
  model_mapping : String → Option MappingEntry
  default_model : Option String
  default_reasoning_effort : Option String

/-- The result shape of `resolveModelMapping`. -/
structure ResolvedModel where
  model : String
  reasoning_effort : Option String
deriving DecidableEq, Repr

/-- The hardcoded fallback model. -/
def DEFAULT_OCA_MODEL : String := "oca/gpt-4.1"

/-- JS `s.startsWith(pre)`: a character-level prefix test (Lean's own
`String.startsWith` does not reduce definitionally, so the model tests the
character lists). -/
def jsStartsWith (s pre : String) : Bool :=
  pre.toList.isPrefixOf s.toList

/-- The default branch of `resolveModelMapping`:
`proxyConfig.default_model || DEFAULT_OCA_MODEL` together with
`proxyConfig.default_reasoning_effort`. -/
def resolveDefault (cfg : ProxyCfgModel) : ResolvedModel :=
  { model :=
      match cfg.default_model with
      | some s => if s = "" then DEFAULT_OCA_MODEL else s
      | none => DEFAULT_OCA_MODEL,
    reasoning_effort := cfg.default_reasoning_effort }

/-- `resolveModelMapping(requestModel)`: `oca/`-prefixed names pass through
with no reasoning effort; otherwise a truthy mapping entry is used (a bare
string gives just a model, an object gives target and reasoning effort; an
empty-string entry is falsy and falls through); otherwise the configured or
hardcoded default. -/
def resolveModelMapping (cfg : ProxyCfgModel) (requestModel : String) : ResolvedModel :=
  if jsStartsWith requestModel "oca/" then
    { model := requestModel, reasoning_effort := none }
  else
    match cfg.model_mapping requestModel with
    | some (.str s) =>
      if s = "" then resolveDefault cfg else { model := s, reasoning_effort := none }
    | some (.obj o) => { model := o.target, reasoning_effort := o.reasoning_effort }
    | none => resolveDefault cfg

/-! ## Request transcoding (src/index, anthropicToOpenAI) -/

/-- One block of an array-valued Anthropic `system` field. -/
structure SysBlock where
  type : String
  text : Option String
deriving DecidableEq, Repr

/-- The Anthropic `system` field: a flat string or an array of blocks. -/
inductive SysContent where
  | str (s : String)
  | blocks (bs : List SysBlock)
deriving DecidableEq, Repr

/-- A typed content block of an Anthropic input message.  `tool_use` inputs
are carried in serialized form (`inputJson` is `JSON.stringify(input)`,
absent when the block has no `input`); `tool_result` content is carried in
its stringified form. -/
inductive AnthBlock where
  | text (text : Option String)
  | tool_use (id : Option String) (name : Option String) (inputJson : Option String)
  | tool_result (tool_use_id : Option String) (content : Option String)
  | other
deriving DecidableEq, Repr

/-- An Anthropic message content: a flat string or typed blocks. -/
inductive MsgContent where
  | str (s : String)
  | blocks (bs : List AnthBlock)
deriving DecidableEq, Repr

/-- An Anthropic input message. -/
structure AnthMsg where
  role : String
  content : MsgContent
deriving DecidableEq, Repr

/-- An Anthropic tool schema entry; `input_schema` is an opaque JSON value
carried in serialized form. -/
structure AnthTool where
  name : Option String
  description : Option String
  input_schema : Option String
deriving DecidableEq, Repr

/-- The Anthropic `tool_choice` field: a literal string or an object. -/
inductive AnthToolChoice where
  | str (s : String)
  | obj (type : Option String) (name : Option String)
deriving DecidableEq, Repr

/-- The fields of an Anthropic Messages request read by
`anthropicToOpenAI`.  `temperature` and `top_p` are JSON numbers that the
code only copies verbatim; they are modelled as `Int`. -/
structure AnthRequest where
  system : Option SysContent
  messages : List AnthMsg
  model : Option String
  tools : Option (List AnthTool)
  tool_choice : Option AnthToolChoice
  max_tokens : Option Int
  temperature : Option Int
  top_p : Option Int
deriving DecidableEq, Repr

/-- An OpenAI-style tool call entry produced for a `tool_use` block; the
serialized `type: "function"` tag is constant and therefore omitted. -/
structure OAIToolCall where
  id : Option String
  name : Option String
  arguments : String
deriving DecidableEq, Repr

/-- An OpenAI-style chat message produced by the conversion. -/
structure OAIMsg where
  role : String
  content : Option String
  tool_call_id : Option String
  tool_calls : Option (List OAIToolCall)
deriving DecidableEq, Repr

/-- An OpenAI-style function tool schema (`type: "function"` omitted as
constant); `parameters` is the serialized `input_schema`. -/
structure OAIToolOut where
  name : Option String
  description : String
  parameters : String
deriving DecidableEq, Repr

/-- The converted `tool_choice`: a literal string, or a forced single
function choice `{type:"function", function:{name}}`. -/
inductive OAIToolChoiceOut where
  | str (s : String)
  | forced (name : Option String)
deriving DecidableEq, Repr

/-- The upstream chat-completion request produced by `anthropicToOpenAI`. -/
structure OAIRequestOut where
  model : String
  messages : List OAIMsg
  stream : Bool
  reasoning_effort : Option String
  tools : Option (List OAIToolOut)
  tool_choice : Option OAIToolChoiceOut
  max_tokens : Option Int
  temperature : Option Int
  top_p : Option Int
deriving DecidableEq, Repr

/-- The per-message loop body of `anthropicToOpenAI`: a flat-string content
passes through as one message; an array of blocks first emits one
`role: "tool"` message per `tool_result` block (pushed during the loop,
before the main message), then emits the main message exactly when its
space-joined text is truthy or it has tool calls. -/
def convertAnthMsg (msg : AnthMsg) : List OAIMsg :=
  match msg.content with
  | .str s => [{ role := msg.role, content := some s, tool_call_id := none, tool_calls := none }]
  | .blocks bs =>
    let toolResults := bs.filterMap fun b =>
      match b with
      | .tool_result tid c =>
        some { role := "tool", content := some (c.getD ""), tool_call_id := tid,
               tool_calls := (none : Option (List OAIToolCall)) }
      | _ => none
    let textParts := bs.filterMap fun b =>
      match b with
      | .text t => some (t.getD "")
      | _ => none
    let toolCalls := bs.filterMap fun b =>
      match b with
      | .tool_use id name inp =>
        some ({ id := id, name := name, arguments := inp.getD "\x7b\x7d" } : OAIToolCall)
      | _ => none
    let content := if textParts.length > 0 then some (String.intercalate " " textParts) else none
    let tcs := if toolCalls.length > 0 then some toolCalls else none
    let mainMsg : List OAIMsg :=
      if optTruthy content || tcs.isSome then
        [{ role := msg.role, content := content, tool_call_id := none, tool_calls := tcs }]
      else []
    toolResults ++ mainMsg

/-- `anthropicToOpenAI(body)`: system prompt flattening, per-message
conversion, model resolution, tool schema and tool choice mapping, the
16384 cap on a truthy `max_tokens`, and verbatim `temperature`/`top_p`
passthrough.  The upstream request always has `stream := true`. -/
def anthropicToOpenAI (cfg : ProxyCfgModel) (body : AnthRequest) : OAIRequestOut :=
  let sysMsgs : List OAIMsg :=
    match body.system with
    | some (.str s) =>
      if s = "" then []
      else [{ role := "system", content := some s, tool_call_id := none, tool_calls := none }]
    | some (.blocks bs) =>
      [{ role := "system",
         content := some (String.intercalate " "
           ((bs.filter fun b => b.type == "text").map fun b => b.text.getD "")),
         tool_call_id := none, tool_calls := none }]
    | none => []
  let msgs := sysMsgs ++ (body.messages.map convertAnthMsg).flatten
  let requestedModel :=
    match body.model with
    | some m => if m = "" then "claude-3-5-sonnet-20241022" else m
    | none => "claude-3-5-sonnet-20241022"
  let resolved := resolveModelMapping cfg requestedModel
  let tools : Option (List OAIToolOut) :=
    match body.tools with
    | some ts =>
      some (ts.map fun t =>
        { name := t.name, description := t.description.getD "",
          parameters := t.input_schema.getD "\x7b\x7d" })
    | none => none
  let toolChoice : Option OAIToolChoiceOut :=
    match body.tools with
    | some _ =>
      match body.tool_choice with
      | some (.obj ty name) => if ty = some "tool" then some (.forced name) else none
      | some (.str s) =>
        if s = "auto" then some (.str "auto")
        else if s = "any" then some (.str "required")
        else none
      | none => none
    | none => none
  { model := resolved.model
    messages := msgs
    stream := true
    reasoning_effort :=
      match resolved.reasoning_effort with
      | some e => if e = "" then none else some e
      | none => none
    tools := tools
    tool_choice := toolChoice
    max_tokens :=
      match body.max_tokens with
      | some n => if n = 0 then none else some (min n 16384)
      | none => none
    temperature := body.temperature
    top_p := body.top_p }

/-! ## Stream transcoding (src/index, streamAnthropicResponse) -/

/-- One entry of a `delta.tool_calls` array in an upstream chunk:
`toolCallDelta.id`, `toolCallDelta.function.name`,
`toolCallDelta.function.arguments`. -/
structure ToolCallDelta where
  id : Option String
  fname : Option String
  args : Option String
deriving DecidableEq, Repr

/-- The `delta` object of an upstream chunk choice. -/
structure ChoiceDelta where
  content : Option String
  tool_calls : Option (List ToolCallDelta)
deriving DecidableEq, Repr

/-- One element of an upstream chunk's `choices` array. -/
structure Choice where
  delta : Option ChoiceDelta
  finish_reason : Option String
deriving DecidableEq, Repr

/-- The `usage` object of an upstream chunk. -/
structure Usage where
  prompt_tokens : Option Nat
  completion_tokens : Option Nat
deriving DecidableEq, Repr

/-- A parsed upstream chat-completion chunk, as read by the transcoder. -/
structure ChunkData where
  choices : List Choice
  usage : Option Usage
deriving DecidableEq, Repr

/-- The Anthropic SSE events the transcoder yields, keeping exactly the
data that varies (the serialized envelope text is a constant frame around
these fields). -/
inductive AnthEvent where
  | message_start (id : String) (model : String)
  | content_block_start_text (index : Nat)
  | content_block_start_tool (index : Nat) (id : String) (name : String)
  | content_block_delta_text (index : Nat) (text : String)
  | content_block_delta_json (index : Nat) (partial_json : String)
  | content_block_stop (index : Nat)
  | message_delta (stop_reason : String) (output_tokens : Nat)
  | message_stop
deriving DecidableEq, Repr

/-- The accumulator behind `currentToolCall`. -/
structure ToolAcc where
  id : String
  name : String
  input : String
deriving DecidableEq, Repr

/-- The per-request mutable state of the streaming transcoder:
`contentBlockIndex`, `textBlockStarted`, `currentToolCall`. -/
structure SState where
  contentBlockIndex : Nat
  textBlockStarted : Bool
  currentToolCall : Option ToolAcc
deriving DecidableEq, Repr

/-- The initial transcoder state. -/
def initSState : SState :=
  { contentBlockIndex := 0, textBlockStarted := false, currentToolCall := none }

/-- The body of the `for (const toolCallDelta of delta.tool_calls)` loop: a
truthy `id` closes an open text block (bumping the index) and starts a new
`tool_use` block; truthy `function.arguments` with an open tool call append
to its input and yield an `input_json_delta`. -/
def processToolCallDelta (st : SState) (tcd : ToolCallDelta) : SState × List AnthEvent :=
  let step1 : SState × List AnthEvent :=
    match tcd.id with
    | some tid =>
      if tid = "" then (st, [])
      else
        let closing : SState × List AnthEvent :=
          if st.textBlockStarted then
            ({ st with contentBlockIndex := st.contentBlockIndex + 1, textBlockStarted := false },
             [.content_block_stop st.contentBlockIndex])
          else (st, [])
        let name := tcd.fname.getD ""
        ({ closing.1 with currentToolCall := some { id := tid, name := name, input := "" } },
         closing.2 ++ [.content_block_start_tool closing.1.contentBlockIndex tid name])
    | none => (st, [])
  match tcd.args with
  | some a =>
    if a = "" then step1
    else
      match step1.1.currentToolCall with
      | some acc =>
        ({ step1.1 with currentToolCall := some { acc with input := acc.input ++ a } },
         step1.2 ++ [.content_block_delta_json step1.1.contentBlockIndex a])
      | none => step1
  | none => step1

/-- The stop-reason translation of the streaming path:
`tool_calls → tool_use`, `stop → end_turn`, everything else unchanged. -/
def translateFinish (fr : String) : String :=
  if fr = "tool_calls" then "tool_use" else if fr = "stop" then "end_turn" else fr

/-- The tool-call branch and the else-if text branch of the per-chunk
processing, over `choice?.delta`. -/
def processDelta (st : SState) (delta : Option ChoiceDelta) : SState × List AnthEvent :=
  match delta with
  | some d =>
    match d.tool_calls with
    | some tcs =>
      tcs.foldl
        (fun acc tcd =>
          let step := processToolCallDelta acc.1 tcd
          (step.1, acc.2 ++ step.2))
        (st, [])
    | none =>
      match d.content with
      | some s =>
        if s = "" then (st, [])
        else
          let opened : SState × List AnthEvent :=
            if st.textBlockStarted then (st, [])
            else ({ st with textBlockStarted := true },
                  [.content_block_start_text st.contentBlockIndex])
          (opened.1, opened.2 ++ [.content_block_delta_text opened.1.contentBlockIndex s])
      | none => (st, [])
  | none => (st, [])

/-- Processing of one parsed upstream chunk: the tool-call / text branches
over `choices?.[0]?.delta`, then the unconditional finish check on
`choices?.[0]?.finish_reason`, which yields `content_block_stop`, a
`message_delta` with the translated stop reason and this chunk's
`usage.completion_tokens || 0`, and a `message_stop` — without terminating
the loop. -/
def processChunk (st : SState) (c : ChunkData) : SState × List AnthEvent :=
  let main := processDelta st ((c.choices.head?).bind (·.delta))
  match (c.choices.head?).bind (·.finish_reason) with
  | some fr =>
    if fr = "" then main
    else
      (main.1,
       main.2 ++
         [.content_block_stop main.1.contentBlockIndex,
          .message_delta (translateFinish fr) ((c.usage.bind (·.completion_tokens)).getD 0),
          .message_stop])
  | none => main

/-- A classified complete SSE line: the `[DONE]` sentinel, a parsed data
chunk, or an unparseable data line (skipped). -/
inductive SSEItem where
  | done
  | chunk (c : ChunkData)
  | junk
deriving DecidableEq, Repr

/-- Whether an item is the `[DONE]` sentinel. -/
def isDone : SSEItem → Bool
  | .done => true
  | _ => false

/-- The per-line loop of the streaming transcoder over classified lines:
`[DONE]` yields `message_stop` and returns (discarding the rest),
unparseable lines are skipped, chunks are processed statefully. -/
def processItems : SState → List SSEItem → List AnthEvent
  | _, [] => []
  | _, .done :: _ => [.message_stop]
  | st, .junk :: rest => processItems st rest
  | st, .chunk c :: rest =>
    let step := processChunk st c
    step.2 ++ processItems step.1 rest

/-- `streamAnthropicResponse` over pre-classified lines: the immediate
`message_start` (with generated message id, resolved model name and zero
usage) followed by the per-line loop from the initial state. -/
def streamAnthropicResponseItems (msgId model : String) (items : List SSEItem) :
    List AnthEvent :=
  .message_start msgId model :: processItems initSState items

/-- Classification of one complete line, mirroring the loop body: empty
lines and `:`-comment lines are skipped, lines without the `data: ` marker
are skipped, `[DONE]` is the sentinel, and the rest is `JSON.parse`d by the
abstract `parse` (a parse failure is a skipped `junk` line). -/
def classifyLine (parse : List Char → Option ChunkData) (line : List Char) : Option SSEItem :=
  if line = [] then none
  else if line.head? = some ':' then none
  else if !("data: ".toList.isPrefixOf line) then none
  else
    let ds := line.drop 6
    if ds = "[DONE]".toList then some .done
    else
      match parse ds with
      | some c => some (.chunk c)
      | none => some .junk

/-- JS `String.split("\n")`: the list of newline-separated segments; a
trailing newline yields a trailing empty segment, and the split of the
empty string is one empty segment. -/
def splitNl : List Char → List (List Char)
  | [] => [[]]
  | c :: cs =>
    if c = '\n' then [] :: splitNl cs
    else
      match splitNl cs with
      | [] => [[c]]
      | l :: ls => (c :: l) :: ls

/-- The chunk loop's line extraction over the already-decoded character
chunks: `buffer += <decoded chunk>`, split on newlines, keep the last
(possibly partial) segment as the new buffer, and hand every complete line
on.  A final unterminated buffer is never processed.  The per-chunk
`chunk.toString()` UTF-8 decode that produces each character chunk is
`utf8Decode` below (see `streamAnthropicResponseBytes`). -/
def linesOfChunks (buffer : List Char) : List (List Char) → List (List Char)
  | [] => []
  | c :: cs =>
    let parts := splitNl (buffer ++ c)
    parts.dropLast ++ linesOfChunks (parts.getLastD []) cs

/-- The streaming transcoder `streamAnthropicResponse` over the decoded
character chunks: chunks are line-buffered, lines are classified, and the
classified items drive the event machine.  The byte-level entry point,
including the per-chunk `chunk.toString()` UTF-8 decode, is
`streamAnthropicResponseBytes` below. -/
def streamAnthropicResponse (parse : List Char → Option ChunkData)
    (msgId model : String) (chunks : List (List Char)) : List AnthEvent :=
  streamAnthropicResponseItems msgId model
    ((linesOfChunks [] chunks).filterMap (classifyLine parse))

/-- Whether a byte is a UTF-8 continuation byte (0x80..0xBF). -/
def utf8Cont (b : Nat) : Bool :=
  0x80 ≤ b && b ≤ 0xBF

/-- The decoder state between bytes: `none` outside a sequence, or
`some (acc, needed, lo, hi)` inside one — `acc` the partial code point,
`needed` the number of continuation bytes still expected, and `lo`/`hi`
the WHATWG bounds on the next byte (tightened after an E0/ED/F0/F4 lead to
exclude overlong forms and surrogates, 0x80..0xBF afterwards). -/
def Utf8State : Type :=
  Option (Nat × Nat × Nat × Nat)

/-- Decoding one byte from the ground state: ASCII passes through, a legal
lead byte opens a sequence with its boundary constraints, anything else
(stray continuation, overlong lead 0xC0/0xC1, byte above 0xF4) emits
U+FFFD. -/
def utf8Start (b : Nat) : List Char × Utf8State :=
  if b < 0x80 then ([Char.ofNat b], none)
  else if 0xC2 ≤ b && b ≤ 0xDF then
    ([], some (b - 0xC0, 1, 0x80, 0xBF))
  else if 0xE0 ≤ b && b ≤ 0xEF then
    ([], some (b - 0xE0, 2, if b = 0xE0 then 0xA0 else 0x80, if b = 0xED then 0x9F else 0xBF))
  else if 0xF0 ≤ b && b ≤ 0xF4 then
    ([], some (b - 0xF0, 3, if b = 0xF0 then 0x90 else 0x80, if b = 0xF4 then 0x8F else 0xBF))
  else ([Char.ofNat 0xFFFD], none)

/-- Decoding one byte: inside a sequence an in-bounds continuation byte is
absorbed (finishing the scalar when it was the last one expected), and an
out-of-bounds byte emits U+FFFD and is reprocessed from the ground state,
as the WHATWG decoder restores the offending byte to the stream. -/
def utf8Step (st : Utf8State) (b : Nat) : List Char × Utf8State :=
  match st with
  | none => utf8Start b
  | some (acc, needed, lo, hi) =>
    if lo ≤ b && b ≤ hi then
      if needed = 1 then ([Char.ofNat (acc * 0x40 + (b - 0x80))], none)
      else ([], some (acc * 0x40 + (b - 0x80), needed - 1, 0x80, 0xBF))
    else
      ((utf8Start b).1.cons (Char.ofNat 0xFFFD), (utf8Start b).2)

/-- Running the decoder over a byte list; a sequence left unfinished at
the end of the buffer emits one final U+FFFD. -/
def utf8DecodeGo : Utf8State → List Nat → List Char
  | st, [] =>
    match st with
    | none => []
    | some _ => [Char.ofNat 0xFFFD]
  | st, b :: rest =>
    (utf8Step st b).1 ++ utf8DecodeGo (utf8Step st b).2 rest

/-- Node's per-chunk `chunk.toString()`: WHATWG UTF-8 decoding of one byte
buffer in isolation, emitting U+FFFD for invalid or truncated sequences.
Because every chunk is decoded independently, a chunk boundary inside a
multi-byte character turns that character into replacement characters. -/
def utf8Decode (bytes : List Nat) : List Char :=
  utf8DecodeGo none bytes

/-- The full byte-level streaming transcoder: the upstream stream arrives
as raw byte chunks, and the loop body `buffer += chunk.toString()` decodes
each chunk independently before appending it to the line buffer. -/
def streamAnthropicResponseBytes (parse : List Char → Option ChunkData)
    (msgId model : String) (chunks : List (List Nat)) : List AnthEvent :=
  streamAnthropicResponse parse msgId model (chunks.map utf8Decode)

/-- The UTF-8 bytes of an ASCII string (used to build byte streams whose
only non-ASCII content is written as explicit bytes). -/
def asciiBytes (s : String) : List Nat :=
  s.toList.map Char.toNat

/-- The JSON document of an upstream chunk whose delta content is the
two-byte character U+00E9 (written 0xC3 0xA9 on the wire). -/
def c4Json : String :=
  "\x7b\"choices\":[\x7b\"delta\":\x7b\"content\":\"\u00E9\"\x7d\x7d]\x7d"

/-- The same document as it decodes when the 0xC3 0xA9 pair is split
across two chunks: each half becomes a U+FFFD replacement character. -/
def c4JsonCorrupt : String :=
  "\x7b\"choices\":[\x7b\"delta\":\x7b\"content\":\"\uFFFD\uFFFD\"\x7d\x7d]\x7d"

/-- `JSON.parse` restricted to the two documents in play: `c4Json` parses
to a chunk with content "é", `c4JsonCorrupt` to one with content
"\uFFFD\uFFFD" (U+FFFD is a legal JSON string character, so both parses
succeed); every other line is irrelevant to the counterexample. -/
def c4Parse : List Char → Option ChunkData := fun ds =>
  if ds = c4Json.toList then
    some ⟨[⟨some ⟨some "\u00E9", none⟩, none⟩], none⟩
  else if ds = c4JsonCorrupt.toList then
    some ⟨[⟨some ⟨some "\uFFFD\uFFFD", none⟩, none⟩], none⟩
  else none

/-- The wire bytes of the `data: <c4Json>` line with its newline, as one
unsplit chunk: ASCII up to the content, then 0xC3 0xA9, then ASCII. -/
def c4BytesWhole : List Nat :=
  asciiBytes "data: \x7b\"choices\":[\x7b\"delta\":\x7b\"content\":\"" ++
    [0xC3, 0xA9] ++ asciiBytes "\"\x7d\x7d]\x7d\n"

/-- The same bytes split into two chunks between 0xC3 and 0xA9 — a chunk
boundary inside the multi-byte character. -/
def c4BytesCut1 : List Nat :=
  asciiBytes "data: \x7b\"choices\":[\x7b\"delta\":\x7b\"content\":\"" ++ [0xC3]

/-- The remainder of the split stream, starting with the stray
continuation byte 0xA9. -/
def c4BytesCut2 : List Nat :=
  [0xA9] ++ asciiBytes "\"\x7d\x7d]\x7d\n"

/-- The text fragment a delta contributes through the text branch: its
truthy `content`, unless the tool-call branch was taken. -/
def deltaTextFragment : Option ChoiceDelta → Option String
  | some d =>
    match d.tool_calls with
    | some _ => none
    | none =>
      match d.content with
      | some s => if s = "" then none else some s
      | none => none
  | none => none

/-- The text fragment a chunk contributes through the text branch. -/
def chunkTextFragment (c : ChunkData) : Option String :=
  deltaTextFragment ((c.choices.head?).bind (·.delta))

/-- The text payload of a `text_delta` event, if any. -/
def textDeltaOf : AnthEvent → Option String
  | .content_block_delta_text _ s => some s
  | _ => none

/-- The text fragment an item contributes. -/
def itemText : SSEItem → Option String
  | .chunk c => chunkTextFragment c
  | _ => none

/-- The `partial_json` payload of an `input_json_delta` event, if any. -/
def jsonDeltaOf : AnthEvent → Option String
  | .content_block_delta_json _ s => some s
  | _ => none

/-! ## Non-streaming aggregation (src/index, POST /v1/messages) -/

/-- The accumulator of the non-streaming aggregation loop. -/
structure AggState where
  fullContent : String
  finishReason : String
  promptTokens : Nat
  completionTokens : Nat
deriving DecidableEq, Repr

/-- The aggregation loop's initial accumulator: `fullContent = ""`,
`finishReason = "end_turn"`, zero token counts. -/
def initAggState : AggState :=
  { fullContent := "", finishReason := "end_turn", promptTokens := 0, completionTokens := 0 }

/-- The aggregation path's stop-reason translation: only `stop` becomes
`end_turn`; everything else is kept verbatim. -/
def aggTranslate (fr : String) : String :=
  if fr = "stop" then "end_turn" else fr

/-- Processing of one parsed chunk in the aggregation loop: append a truthy
`delta.content`, record a truthy `finish_reason` (translated), and copy a
truthy `usage` into both token counters. -/
def aggProcessChunk (st : AggState) (c : ChunkData) : AggState :=
  let st1 :=
    match ((c.choices.head?).bind (·.delta)).bind (·.content) with
    | some s => if s = "" then st else { st with fullContent := st.fullContent ++ s }
    | none => st
  let st2 :=
    match (c.choices.head?).bind (·.finish_reason) with
    | some fr => if fr = "" then st1 else { st1 with finishReason := aggTranslate fr }
    | none => st1
  match c.usage with
  | some u =>
    { st2 with promptTokens := u.prompt_tokens.getD 0,
               completionTokens := u.completion_tokens.getD 0 }
  | none => st2

/-- The per-line loop of the aggregation path over classified lines of one
buffered chunk; `[DONE]` breaks out of this (inner) loop only. -/
def aggProcessLines : AggState → List SSEItem → AggState
  | st, [] => st
  | st, .done :: _ => st
  | st, .junk :: rest => aggProcessLines st rest
  | st, .chunk c :: rest => aggProcessLines (aggProcessChunk st c) rest

/-- A content block of the aggregate Anthropic response. -/
inductive OutBlock where
  | text (s : String)
deriving DecidableEq, Repr

/-- The aggregate Anthropic message returned by the non-streaming path. -/
structure AnthMessage where
  id : String
  role : String
  content : List OutBlock
  model : String
  stop_reason : String
  input_tokens : Nat
  output_tokens : Nat
deriving DecidableEq, Repr

/-- The response JSON built from the final accumulator: a single text
block with the full content, the tracked stop reason and usage. -/
def buildAnthMessage (msgId model : String) (st : AggState) : AnthMessage :=
  { id := msgId, role := "assistant", content := [.text st.fullContent], model := model,
    stop_reason := st.finishReason, input_tokens := st.promptTokens,
    output_tokens := st.completionTokens }

/-- The non-streaming aggregation over the classified lines of a single
buffered chunk list whose lines all arrive in one chunk: loop, then build
the response message. -/
def nonStreamingMessage (msgId model : String) (items : List SSEItem) : AnthMessage :=
  buildAnthMessage msgId model (aggProcessLines initAggState items)

/-- The truthy `finish_reason` an item carries, if any. -/
def itemFinish : SSEItem → Option String
  | .chunk c =>
    match (c.choices.head?).bind (·.finish_reason) with
    | some fr => if fr = "" then none else some fr
    | none => none
  | _ => none

/-- The text fragment a chunk contributes in the aggregation path: its
truthy `delta.content`, read regardless of any tool-call fields. -/
def itemTextAgg : SSEItem → Option String
  | .chunk c =>
    match ((c.choices.head?).bind (·.delta)).bind (·.content) with
    | some s => if s = "" then none else some s
    | none => none
  | _ => none

/-! ## Helper lemmas about the newline splitter -/

theorem splitNl_ne_nil : ∀ (x : List Char), splitNl x ≠ []
  | [] => by simp [splitNl]
  | c :: cs => by
    simp only [splitNl]
    split
    · simp
    · split
      · simp
      · simp

theorem splitNl_cons_newline (cs : List Char) : splitNl ('\n' :: cs) = [] :: splitNl cs := by
  simp [splitNl]

theorem splitNl_cons_ne (c : Char) (cs : List Char) (h : ¬c = '\n') :
    splitNl (c :: cs) = (splitNl cs).modifyHead (c :: ·) := by
  simp only [splitNl, if_neg h]
  rcases hs : splitNl cs with _ | ⟨l, ls⟩
  · exact absurd hs (splitNl_ne_nil cs)
  · simp [List.modifyHead_cons]

theorem splitNl_no_newline : ∀ (x : List Char), ∀ p ∈ splitNl x, '\n' ∉ p
  | [] => by
    intro p hp
    simp [splitNl] at hp
    simp [hp]
  | c :: cs => by
    intro p hp
    by_cases hc : c = '\n'
    · subst hc
      rw [splitNl_cons_newline] at hp
      rcases List.mem_cons.mp hp with h | h
      · simp [h]
      · exact splitNl_no_newline cs p h
    · rw [splitNl_cons_ne c cs hc] at hp
      rcases hs : splitNl cs with _ | ⟨l, ls⟩
      · exact absurd hs (splitNl_ne_nil cs)
      · rw [hs, List.modifyHead_cons] at hp
        rcases List.mem_cons.mp hp with h | h
        · subst h
          intro hmem
          rcases List.mem_cons.mp hmem with h' | h'
          · exact hc h'.symm
          · exact splitNl_no_newline cs l (hs ▸ List.mem_cons_self _ _) h'
        · exact splitNl_no_newline cs p (hs ▸ List.mem_cons_of_mem _ h)

theorem splitNl_of_no_newline : ∀ (x : List Char), '\n' ∉ x → splitNl x = [x]
  | [], _ => rfl
  | c :: cs, h => by
    have hc : ¬c = '\n' := fun he => h (he ▸ List.mem_cons_self _ _)
    rw [splitNl_cons_ne c cs hc,
      splitNl_of_no_newline cs (fun hm => h (List.mem_cons_of_mem _ hm)),
      List.modifyHead_cons]

theorem getLastD_irrel {α : Type} : ∀ (l : List α), l ≠ [] → ∀ (d d' : α),
    l.getLastD d = l.getLastD d'
  | [], h, _, _ => absurd rfl h
  | _ :: _, _, d, d' => by rw [List.getLastD_cons, List.getLastD_cons]

theorem getLastD_mem {α : Type} : ∀ (l : List α), l ≠ [] → ∀ (d : α), l.getLastD d ∈ l
  | [], h, _ => absurd rfl h
  | [x], _, d => by simp [List.getLastD_cons]
  | x :: y :: t, _, d => by
    rw [List.getLastD_cons]
    exact List.mem_cons_of_mem _ (getLastD_mem (y :: t) (by simp) x)

theorem modifyHead_ne_nil {α : Type} (f : α → α) (l : List α) (h : l ≠ []) :
    l.modifyHead f ≠ [] := by
  rcases l with _ | ⟨x, t⟩
  · exact absurd rfl h
  · simp [List.modifyHead_cons]

theorem modifyHead_id_fun {α : Type} (l : List α) : l.modifyHead (fun x => x) = l := by
  rcases l with _ | ⟨x, t⟩
  · rfl
  · simp [List.modifyHead_cons]

theorem splitNl_append : ∀ (a b : List Char),
    splitNl (a ++ b) =
      (splitNl a).dropLast ++ (splitNl b).modifyHead (fun x => (splitNl a).getLastD [] ++ x)
  | [], b => by
    simp [splitNl, modifyHead_id_fun]
  | c :: a', b => by
    by_cases hc : c = '\n'
    · subst hc
      have hne := splitNl_ne_nil a'
      rw [List.cons_append, splitNl_cons_newline, splitNl_cons_newline,
        splitNl_append a' b, List.dropLast_cons_of_ne_nil hne, List.getLastD_cons,
        getLastD_irrel (splitNl a') hne [] []]
      simp
    · rcases hs : splitNl a' with _ | ⟨l, ls⟩
      · exact absurd hs (splitNl_ne_nil a')
      · rw [List.cons_append, splitNl_cons_ne c _ hc, splitNl_cons_ne c _ hc,
          splitNl_append a' b, hs]
        rcases ls with _ | ⟨m, ms⟩
        · simp only [List.dropLast_single, List.nil_append, List.getLastD_cons,
            List.getLastD_nil, List.modifyHead_cons]
          rw [List.modifyHead_modifyHead]
          rfl
        · have hmm : (m :: ms) ≠ [] := by simp
          simp [List.dropLast_cons_of_ne_nil hmm, List.getLastD_cons,
            List.modifyHead_cons, List.cons_append]

theorem splitNl_no_newline_prefix : ∀ (p : List Char), '\n' ∉ p → ∀ (y : List Char),
    splitNl (p ++ y) = (splitNl y).modifyHead (fun x => p ++ x)
  | [], _, y => by simp [modifyHead_id_fun]
  | c :: p', h, y => by
    have hc : ¬c = '\n' := fun he => h (he ▸ List.mem_cons_self _ _)
    rw [List.cons_append, splitNl_cons_ne c _ hc,
      splitNl_no_newline_prefix p' (fun hm => h (List.mem_cons_of_mem _ hm)) y,
      List.modifyHead_modifyHead]
    rfl

theorem linesOfChunks_eq : ∀ (cs : List (List Char)) (buf : List Char), '\n' ∉ buf →
    linesOfChunks buf cs = (splitNl (buf ++ cs.flatten)).dropLast
  | [], buf, h => by
    simp [linesOfChunks, splitNl_of_no_newline buf h]
  | c :: cs, buf, h => by
    have hne := splitNl_ne_nil (buf ++ c)
    have hlast : '\n' ∉ (splitNl (buf ++ c)).getLastD [] :=
      splitNl_no_newline (buf ++ c) _ (getLastD_mem _ hne [])
    rw [linesOfChunks, linesOfChunks_eq cs _ hlast, List.flatten_cons, ← List.append_assoc,
      splitNl_append (buf ++ c) cs.flatten,
      splitNl_no_newline_prefix _ hlast cs.flatten,
      List.dropLast_append_of_ne_nil _ (modifyHead_ne_nil _ _ (splitNl_ne_nil _))]

/-! ## Helper lemmas about the streaming event machine -/

theorem processToolCallDelta_no_text (st : SState) (tcd : ToolCallDelta) :
    (processToolCallDelta st tcd).2.filterMap textDeltaOf = [] := by
  rcases tcd with ⟨id, fname, args⟩
  rcases id with _ | tid
  · rcases args with _ | a
    · rfl
    · by_cases ha : a = ""
      · simp [processToolCallDelta, ha]
      · rcases hcur : st.currentToolCall with _ | acc <;>
          simp [processToolCallDelta, ha, hcur, textDeltaOf]
  · by_cases htid : tid = ""
    · rcases args with _ | a
      · simp [processToolCallDelta, htid]
      · by_cases ha : a = ""
        · simp [processToolCallDelta, htid, ha]
        · rcases hcur : st.currentToolCall with _ | acc <;>
            simp [processToolCallDelta, htid, ha, hcur, textDeltaOf]
    · by_cases hst : st.textBlockStarted <;>
        rcases args with _ | a
      · simp [processToolCallDelta, htid, hst, textDeltaOf]
      · by_cases ha : a = "" <;>
          simp [processToolCallDelta, htid, hst, ha, textDeltaOf]
      · simp [processToolCallDelta, htid, hst, textDeltaOf]
      · by_cases ha : a = "" <;>
          simp [processToolCallDelta, htid, hst, ha, textDeltaOf]

theorem toolFold_no_text : ∀ (tcs : List ToolCallDelta) (st : SState) (evs : List AnthEvent),
    ((tcs.foldl
        (fun acc tcd =>
          let step := processToolCallDelta acc.1 tcd
          (step.1, acc.2 ++ step.2))
        (st, evs)).2).filterMap textDeltaOf = evs.filterMap textDeltaOf
  | [], _, _ => rfl
  | tcd :: tcs, st, evs => by
    rw [List.foldl_cons, toolFold_no_text tcs]
    simp [List.filterMap_append, processToolCallDelta_no_text]

theorem processDelta_textDeltas (st : SState) (delta : Option ChoiceDelta) :
    (processDelta st delta).2.filterMap textDeltaOf = (deltaTextFragment delta).toList := by
  rcases delta with _ | d
  · rfl
  · rcases htc : d.tool_calls with _ | tcs
    · rcases hc : d.content with _ | s
      · simp [processDelta, deltaTextFragment, htc, hc]
      · by_cases hs : s = ""
        · simp [processDelta, deltaTextFragment, htc, hc, hs]
        · by_cases hst : st.textBlockStarted <;>
            simp [processDelta, deltaTextFragment, htc, hc, hs, hst,
              List.filterMap_append, textDeltaOf]
    · simp [processDelta, deltaTextFragment, htc, toolFold_no_text]

theorem processChunk_textDeltas (st : SState) (c : ChunkData) :
    (processChunk st c).2.filterMap textDeltaOf = (chunkTextFragment c).toList := by
  rw [processChunk, chunkTextFragment]
  rcases hf : (c.choices.head?).bind (·.finish_reason) with _ | fr
  · exact processDelta_textDeltas st _
  · by_cases hfr : fr = ""
    · simpa [hfr] using processDelta_textDeltas st _
    · simp [hfr, List.filterMap_append, textDeltaOf, processDelta_textDeltas st _]

theorem processItems_textDeltas : ∀ (items : List SSEItem) (st : SState),
    (processItems st items).filterMap textDeltaOf =
      (items.takeWhile (fun i => !isDone i)).filterMap itemText
  | [], _ => rfl
  | .done :: rest, st => by
    simp [processItems, List.takeWhile_cons, isDone, textDeltaOf]
  | .junk :: rest, st => by
    simp only [processItems, List.takeWhile_cons]
    rw [processItems_textDeltas rest st]
    simp [isDone, itemText]
  | .chunk c :: rest, st => by
    simp only [processItems, List.takeWhile_cons, List.filterMap_append]
    rw [processItems_textDeltas rest]
    simp only [isDone, Bool.not_false, if_pos]
    rw [processChunk_textDeltas]
    rcases h : chunkTextFragment c with _ | s <;> simp [List.filterMap_cons, itemText, h]

/-! ## Helper lemmas about base64url encoding -/

theorem base64urlEncode_append : ∀ (a b : List Nat), a.length % 3 = 0 →
    base64urlEncode (a ++ b) = base64urlEncode a ++ base64urlEncode b
  | [], _, _ => rfl
  | [_], _, h => by simp at h
  | [_, _], _, h => by simp at h
  | x :: y :: z :: rest, b, h => by
    have h' : rest.length % 3 = 0 := by
      simp only [List.length_cons] at h
      omega
    simp only [List.cons_append, base64urlEncode]
    rw [show rest.append b = rest ++ b from rfl, base64urlEncode_append rest b h']

theorem base64urlEncode_length : ∀ (a : List Nat), a.length % 3 = 0 →
    (base64urlEncode a).length = a.length / 3 * 4
  | [], _ => rfl
  | [_], h => by simp at h
  | [_, _], h => by simp at h
  | x :: y :: z :: rest, h => by
    have h' : rest.length % 3 = 0 := by
      simp only [List.length_cons] at h
      omega
    simp only [base64urlEncode, List.length_cons]
    rw [base64urlEncode_length rest h']
    omega

theorem b64urlChar_ne_pad (n : Nat) : b64urlChar n ≠ '=' := by
  by_cases h : n < B64URL_ALPHABET.length
  · have hm : b64urlChar n ∈ B64URL_ALPHABET := by
      rw [b64urlChar, List.getD_eq_getElem?_getD, List.getElem?_eq_getElem h]
      exact List.getElem_mem h
    intro he
    rw [he] at hm
    revert hm
    decide
  · rw [b64urlChar, List.getD_eq_getElem?_getD, List.getElem?_eq_none (Nat.le_of_not_lt h)]
    decide

theorem base64urlEncode_no_pad : ∀ (a : List Nat), '=' ∉ base64urlEncode a
  | [] => by simp [base64urlEncode]
  | [x] => by
    intro hm
    rcases List.mem_cons.mp hm with h | h
    · exact b64urlChar_ne_pad _ h.symm
    · rcases List.mem_cons.mp h with h' | h'
      · exact b64urlChar_ne_pad _ h'.symm
      · simp at h'
  | [x, y] => by
    intro hm
    rcases List.mem_cons.mp hm with h | h
    · exact b64urlChar_ne_pad _ h.symm
    · rcases List.mem_cons.mp h with h' | h'
      · exact b64urlChar_ne_pad _ h'.symm
      · rcases List.mem_cons.mp h' with h'' | h''
        · exact b64urlChar_ne_pad _ h''.symm
        · simp at h''
  | x :: y :: z :: rest => by
    intro hm
    rcases List.mem_cons.mp hm with h | h
    · exact b64urlChar_ne_pad _ h.symm
    · rcases List.mem_cons.mp h with h' | h'
      · exact b64urlChar_ne_pad _ h'.symm
      · rcases List.mem_cons.mp h' with h'' | h''
        · exact b64urlChar_ne_pad _ h''.symm
        · rcases List.mem_cons.mp h'' with h3 | h3
          · exact b64urlChar_ne_pad _ h3.symm
          · exact base64urlEncode_no_pad rest h3

theorem generateRandomString_take24 (bs : List Nat) (h : bs.length = 32) :
    generateRandomString 32 bs = base64urlEncode (bs.take 24) := by
  have hsplit : bs = bs.take 24 ++ bs.drop 24 := (List.take_append_drop 24 bs).symm
  have hlen : (bs.take 24).length = 24 := by
    rw [List.length_take, h]
    rfl
  have henc : base64urlEncode bs =
      base64urlEncode (bs.take 24) ++ base64urlEncode (bs.drop 24) := by
    calc base64urlEncode bs = base64urlEncode (bs.take 24 ++ bs.drop 24) := by rw [← hsplit]
    _ = _ := base64urlEncode_append _ _ (by rw [hlen])
  have hlen32 : (base64urlEncode (bs.take 24)).length = 32 := by
    rw [base64urlEncode_length _ (by rw [hlen]), hlen]
  rw [generateRandomString, henc, ← hlen32, List.take_left]

theorem processChunk_finish_suffix (st : SState) (c : ChunkData) (fr : String)
    (hf : (c.choices.head?).bind (·.finish_reason) = some fr) (hfr : ¬fr = "") :
    ∃ pre, (processChunk st c).2 =
      pre ++
        [.content_block_stop (processChunk st c).1.contentBlockIndex,
         .message_delta (translateFinish fr) ((c.usage.bind (·.completion_tokens)).getD 0),
         .message_stop] := by
  rw [processChunk, hf]
  simp only [if_neg hfr]
  exact ⟨_, rfl⟩

/-! ## Helper lemmas about the aggregation loop -/

theorem aggProcessChunk_content (st : AggState) (c : ChunkData) :
    (aggProcessChunk st c).fullContent =
      match itemTextAgg (.chunk c) with
      | some s => st.fullContent ++ s
      | none => st.fullContent := by
  rw [aggProcessChunk, itemTextAgg]
  rcases hc : ((c.choices.head?).bind (·.delta)).bind (·.content) with _ | s
  · rcases hf : (c.choices.head?).bind (·.finish_reason) with _ | fr <;>
      rcases hu : c.usage with _ | u <;>
        simp [hf, hu] <;>
          (try (split <;> rfl))
  · by_cases hs : s = "" <;>
      rcases hf : (c.choices.head?).bind (·.finish_reason) with _ | fr <;>
        rcases hu : c.usage with _ | u <;>
          simp [hs, hf, hu] <;>
            (try (split <;> rfl))

theorem aggProcessChunk_finish (st : AggState) (c : ChunkData) :
    (aggProcessChunk st c).finishReason =
      match itemFinish (.chunk c) with
      | some fr => aggTranslate fr
      | none => st.finishReason := by
  rw [aggProcessChunk, itemFinish]
  rcases hf : (c.choices.head?).bind (·.finish_reason) with _ | fr
  · rcases hc : ((c.choices.head?).bind (·.delta)).bind (·.content) with _ | s <;>
      rcases hu : c.usage with _ | u <;>
        simp [hc, hu] <;>
          by_cases hs : s = "" <;> simp [hs]
  · by_cases hfr : fr = "" <;>
      rcases hc : ((c.choices.head?).bind (·.delta)).bind (·.content) with _ | s <;>
        rcases hu : c.usage with _ | u <;>
          simp [hc, hu, hfr] <;>
            by_cases hs : s = "" <;> simp [hs]

theorem aggProcessLines_content : ∀ (items : List SSEItem) (st : AggState),
    (∀ i ∈ items, isDone i = false) →
    (aggProcessLines st items).fullContent =
      (items.filterMap itemTextAgg).foldl (· ++ ·) st.fullContent
  | [], _, _ => rfl
  | .done :: rest, st, h => by
    have := h _ (List.mem_cons_self _ _)
    simp [isDone] at this
  | .junk :: rest, st, h => by
    rw [aggProcessLines, aggProcessLines_content rest st fun i hi => h i (List.mem_cons_of_mem _ hi)]
    simp [itemTextAgg]
  | .chunk c :: rest, st, h => by
    rw [aggProcessLines,
      aggProcessLines_content rest _ fun i hi => h i (List.mem_cons_of_mem _ hi)]
    rcases hfrag : itemTextAgg (.chunk c) with _ | s <;>
      simp [List.filterMap_cons, hfrag, aggProcessChunk_content st c]

theorem aggProcessLines_finish : ∀ (items : List SSEItem) (st : AggState),
    (∀ i ∈ items, isDone i = false) →
    (aggProcessLines st items).finishReason =
      (items.filterMap itemFinish).foldl (fun _ fr => aggTranslate fr) st.finishReason
  | [], _, _ => rfl
  | .done :: rest, st, h => by
    have := h _ (List.mem_cons_self _ _)
    simp [isDone] at this
  | .junk :: rest, st, h => by
    rw [aggProcessLines, aggProcessLines_finish rest st fun i hi => h i (List.mem_cons_of_mem _ hi)]
    simp [itemFinish]
  | .chunk c :: rest, st, h => by
    rw [aggProcessLines,
      aggProcessLines_finish rest _ fun i hi => h i (List.mem_cons_of_mem _ hi)]
    rcases hfin : itemFinish (.chunk c) with _ | fr <;>
      simp [List.filterMap_cons, hfin, aggProcessChunk_finish st c]

theorem aggProcessLines_append_done : ∀ (items : List SSEItem) (st : AggState),
    (∀ i ∈ items, isDone i = false) →
    aggProcessLines st (items ++ [.done]) = aggProcessLines st items
  | [], _, _ => rfl
  | .done :: rest, st, h => by
    have := h _ (List.mem_cons_self _ _)
    simp [isDone] at this
  | .junk :: rest, st, h => by
    rw [List.cons_append, aggProcessLines, aggProcessLines,
      aggProcessLines_append_done rest st fun i hi => h i (List.mem_cons_of_mem _ hi)]
  | .chunk c :: rest, st, h => by
    rw [List.cons_append, aggProcessLines, aggProcessLines,
      aggProcessLines_append_done rest _ fun i hi => h i (List.mem_cons_of_mem _ hi)]

/-! ## Helper lemmas about getToken entries -/

theorem cacheValid_set_promise (s : TMState) (p : Option Nat) (t : Int) :
    cacheValid { s with refreshPromise := p } t = cacheValid s t := rfl

theorem runEnters_all_attach : ∀ (ts : List Int) (s : TMState) (n : Nat) (pid : Nat),
    optTruthy s.refreshToken = true →
    s.refreshPromise = some pid →
    (∀ t ∈ ts, cacheValid s t = false) →
    runEnters s n ts = (ts.map fun _ => .attach pid, s, n)
  | [], _, _, _, _, _, _ => rfl
  | t :: ts, s, n, pid, hauth, hp, hcold => by
    have hentry : getTokenEntry s t n = (.attach pid, s) := by
      rw [getTokenEntry, hauth, hcold t (List.mem_cons_self _ _), hp]
      rfl
    rw [runEnters, hentry]
    simp only [isStartRefresh, Bool.false_eq_true, if_false]
    rw [runEnters_all_attach ts s n pid hauth hp
      fun u hu => hcold u (List.mem_cons_of_mem _ hu)]
    rfl

theorem countP_attach_map {β : Type} (l : List β) (pid : Nat) :
    ((l.map fun _ => EntryResult.attach pid).countP isStartRefresh) = 0 := by
  induction l with
  | nil => rfl
  | cons x t ih => simp [List.countP_cons, ih, isStartRefresh]

/-! ## Claim theorems -/

/-- C1: with a refresh token present, no in-flight refresh, and no valid
cached access token at any caller's entry time, a burst of N concurrent
`getToken()` entries (with no intervening promise resolution) makes the
first caller start exactly one refresh network operation — promise id 0 —
and every other caller attaches to that same in-flight promise, so all N
callers await the result of the single refresh; the final fresh-promise
counter 1 records that exactly one network call was started, and the
installed `refreshPromise` is that single promise. -/
theorem C1_getToken_refresh_coalescing (s : TMState) (t : Int) (ts : List Int)
    (hauth : optTruthy s.refreshToken = true)
    (hpromise : s.refreshPromise = none)
    (hcold : ∀ u ∈ t :: ts, cacheValid s u = false) :
    runEnters s 0 (t :: ts) =
      (.startRefresh 0 :: ts.map fun _ => .attach 0,
       { s with refreshPromise := some 0 }, 1) ∧
    (runEnters s 0 (t :: ts)).1.countP isStartRefresh = 1 := by
  have hentry : getTokenEntry s t 0 = (.startRefresh 0, { s with refreshPromise := some 0 }) := by
    rw [getTokenEntry, hauth, hcold t (List.mem_cons_self _ _), hpromise]
    rfl
  have hmain : runEnters s 0 (t :: ts) =
      (.startRefresh 0 :: ts.map fun _ => .attach 0,
       { s with refreshPromise := some 0 }, 1) := by
    rw [runEnters, hentry]
    simp only [isStartRefresh, if_pos]
    rw [runEnters_all_attach ts { s with refreshPromise := some 0 } 1 0 hauth rfl
      fun u hu => by
        rw [cacheValid_set_promise]
        exact hcold u (List.mem_cons_of_mem _ hu)]
  refine ⟨hmain, ?_⟩
  rw [show (runEnters s 0 (t :: ts)).1 = .startRefresh 0 :: ts.map fun _ => .attach 0 from
    congrArg Prod.fst hmain]
  simp [List.countP_cons, countP_attach_map, isStartRefresh]

/-- C1 witness: three concurrent entries at times 0, 1, 2 on a freshly
loaded manager with refresh token "rt" and no cached access token. -/
theorem C1_getToken_refresh_coalescing_witness :
    runEnters ⟨some "rt", none, none, none, some "rt"⟩ 0 [0, 1, 2] =
      ([.startRefresh 0, .attach 0, .attach 0],
       ⟨some "rt", none, none, some 0, some "rt"⟩, 1) :=
  (C1_getToken_refresh_coalescing ⟨some "rt", none, none, none, some "rt"⟩ 0 [1, 2]
    (by decide) rfl (by decide)).1

/-- C3: when a refresh attempt fails with HTTP 400 and error code
`invalid_grant` or `invalid_token`, `doRefreshToken` clears the refresh
token, the cached access token, the expiry and the persisted storage and
fails with the auth-expired error, so `isAuthenticated` is false
afterwards; on every other failure (no HTTP status, non-400 status, or a
different error code) it fails with the generic refresh error and the
whole state — in particular the held refresh token — is unchanged. -/
theorem C3_refresh_failure_policy (s : TMState) (now : Int) (f : RefreshFailureData)
    (hauth : optTruthy s.refreshToken = true) :
    (isInvalidGrant f = true →
      (doRefreshToken s now (.fail f)).2 = .error .authExpired ∧
      (doRefreshToken s now (.fail f)).1.refreshToken = none ∧
      (doRefreshToken s now (.fail f)).1.accessToken = none ∧
      (doRefreshToken s now (.fail f)).1.tokenExpiry = none ∧
      (doRefreshToken s now (.fail f)).1.persisted = none ∧
      isAuthenticated (doRefreshToken s now (.fail f)).1 = false) ∧
    (isInvalidGrant f = false →
      (doRefreshToken s now (.fail f)).2 = .error .refreshFailed ∧
      (doRefreshToken s now (.fail f)).1 = s ∧
      (doRefreshToken s now (.fail f)).1.refreshToken = s.refreshToken) := by
  constructor
  · intro hg
    rw [doRefreshToken, hauth]
    simp [hg, clearAuth, isAuthenticated]
  · intro hg
    rw [doRefreshToken, hauth]
    simp [hg]

/-- C3 witness: an authenticated manager hit by an HTTP 400
`invalid_grant` failure ends up fully cleared, while a 503 failure leaves
it untouched. -/
theorem C3_refresh_failure_policy_witness :
    (doRefreshToken ⟨some "rt", some "at", some 99999, none, some "rt"⟩ 0
        (.fail ⟨some 400, some "invalid_grant"⟩)).2 = .error .authExpired ∧
    isAuthenticated (doRefreshToken ⟨some "rt", some "at", some 99999, none, some "rt"⟩ 0
        (.fail ⟨some 400, some "invalid_grant"⟩)).1 = false ∧
    (doRefreshToken ⟨some "rt", some "at", some 99999, none, some "rt"⟩ 0
        (.fail ⟨some 503, none⟩)).1 = ⟨some "rt", some "at", some 99999, none, some "rt"⟩ := by
  refine ⟨?_, ?_, ?_⟩
  · exact ((C3_refresh_failure_policy ⟨some "rt", some "at", some 99999, none, some "rt"⟩ 0
      ⟨some 400, some "invalid_grant"⟩ (by decide)).1 (by decide)).1
  · exact ((C3_refresh_failure_policy ⟨some "rt", some "at", some 99999, none, some "rt"⟩ 0
      ⟨some 400, some "invalid_grant"⟩ (by decide)).1 (by decide)).2.2.2.2.2
  · exact ((C3_refresh_failure_policy ⟨some "rt", some "at", some 99999, none, some "rt"⟩ 0
      ⟨some 503, none⟩ (by decide)).2 (by decide)).2.1

/-- C7: for every store and state value, a second callback invocation with
the same state fails with the invalid-or-expired-state error, because a
first invocation that finds the session deletes it before the token
exchange runs (whatever the exchange returns) — a state never resolves to
a live session twice. -/
theorem C7_callback_single_consumption {α : Type} (m : PkceMap) (st : String)
    (exch1 exch2 : PkceState → Except CallbackError α) :
    (consumeCallback (consumeCallback m st exch1).2 st exch2).1 =
      .error .invalidOrExpiredState ∧
    (∀ d : PkceState, getPkceState m st = some d →
      (consumeCallback m st exch1).2 = removePkceState m st ∧
      (consumeCallback m st exch1).1 = exch1 d) := by
  have hnone : getPkceState (removePkceState m st) st = none := by
    rw [getPkceState, removePkceState]
    simp
  constructor
  · rcases hfound : getPkceState m st with _ | d
    · have hi : (consumeCallback m st exch1).2 = m := by
        rw [consumeCallback, hfound]
      rw [hi, consumeCallback, hfound]
    · have hi : (consumeCallback m st exch1).2 = removePkceState m st := by
        rw [consumeCallback, hfound]
      rw [hi, consumeCallback, hnone]
  · intro d hfound
    rw [consumeCallback, hfound]
    exact ⟨rfl, rfl⟩

/-- C7 witness: a store holding one session for state "s1"; the first
consumption succeeds, the second fails with the invalid-state error. -/
theorem C7_callback_single_consumption_witness :
    (consumeCallback
        (consumeCallback (fun x => if x = "s1" then some ⟨"ver", "non", "uri", 0⟩ else none)
          "s1" (fun _ => Except.ok "tokens")).2
        "s1" (fun _ => Except.ok "tokens")).1 =
      .error .invalidOrExpiredState ∧
    (consumeCallback (fun x => if x = "s1" then some ⟨"ver", "non", "uri", 0⟩ else none)
        "s1" (fun _ => Except.ok "tokens")).2 =
      removePkceState (fun x => if x = "s1" then some ⟨"ver", "non", "uri", 0⟩ else none) "s1" :=
  ⟨(C7_callback_single_consumption
      (fun x => if x = "s1" then some ⟨"ver", "non", "uri", 0⟩ else none)
      "s1" (fun _ => Except.ok "tokens") (fun _ => Except.ok "tokens")).1,
   ((C7_callback_single_consumption
      (fun x => if x = "s1" then some ⟨"ver", "non", "uri", 0⟩ else none)
      "s1" (fun _ => Except.ok "tokens") (fun _ => Except.ok "tokens")).2
      ⟨"ver", "non", "uri", 0⟩ (by simp [getPkceState])).1⟩

/-- C5 counterexample: a session created at time 0 is still returned by
`getPkceState` — and callback consumption therefore succeeds instead of
failing with the invalid-or-expired-state error — at a conceptual current
time of 600001 ms, more than 10 minutes after its creation, because no
sweep has run: the lookup itself performs no expiry check. -/
theorem C5_lookup_ignores_age_counterexample :
    (600000 : Int) < 600001 - (0 : Int) ∧
    getPkceState (fun x => if x = "sA" then some ⟨"v", "n", "u", 0⟩ else none) "sA" =
      some ⟨"v", "n", "u", 0⟩ ∧
    (consumeCallback (fun x => if x = "sA" then some ⟨"v", "n", "u", 0⟩ else none) "sA"
        (fun _ => Except.ok "tokens")).1 = Except.ok "tokens" := by
  refine ⟨by decide, ?_, ?_⟩
  · simp [getPkceState]
  · have h : getPkceState (fun x => if x = "sA" then some ⟨"v", "n", "u", 0⟩ else none) "sA" =
        some ⟨"v", "n", "u", 0⟩ := by simp [getPkceState]
    rw [consumeCallback, h]

/-- C5 amended: a stored session more than 10 minutes old is removed by
the sweep `cleanupExpiredStates` — which runs on each session-creation
call — and after such a sweep the callback lookup fails with the
invalid-or-expired-state error; without an intervening sweep, however, the
plain lookup still returns the session (see the counterexample). -/
theorem C5_session_expiry_amended (m : PkceMap) (now : Int) (st : String) (d : PkceState)
    (hstored : m st = some d) (hexp : d.created_at < now - 600000) :
    getPkceState (cleanupExpiredStates now m) st = none ∧
    ∀ {α : Type} (exch : PkceState → Except CallbackError α),
      (consumeCallback (cleanupExpiredStates now m) st exch).1 =
        .error .invalidOrExpiredState := by
  have h1 : getPkceState (cleanupExpiredStates now m) st = none := by
    simp [getPkceState, cleanupExpiredStates, hstored, hexp]
  refine ⟨h1, ?_⟩
  intro α exch
  rw [consumeCallback, h1]

/-- C5 witness: the same expired session, once a sweep at time 600001 has
run, is gone and its consumption fails. -/
theorem C5_session_expiry_amended_witness :
    getPkceState
        (cleanupExpiredStates 600001 (fun x => if x = "sA" then some ⟨"v", "n", "u", 0⟩ else none))
        "sA" = none ∧
    (consumeCallback
        (cleanupExpiredStates 600001 (fun x => if x = "sA" then some ⟨"v", "n", "u", 0⟩ else none))
        "sA" (fun _ => Except.ok "tokens")).1 = .error .invalidOrExpiredState := by
  have h := C5_session_expiry_amended
    (fun x => if x = "sA" then some ⟨"v", "n", "u", 0⟩ else none) 600001 "sA"
    ⟨"v", "n", "u", 0⟩ (by simp) (by decide)
  exact ⟨h.1, h.2 _⟩

/-- C6 counterexample: two different 32-byte random draws that agree on
their first 24 bytes produce the same state/nonce string, because
`generateRandomString` truncates the 43-character base64url encoding of
its 32 random bytes to 32 characters (32 characters carry 192 bits = 24
bytes); the generated value therefore cannot carry 32 bytes of entropy. -/
theorem C6_random_string_entropy_counterexample :
    List.replicate 32 (0 : Nat) ≠ List.replicate 24 (0 : Nat) ++ List.replicate 8 (255 : Nat) ∧
    generateRandomString 32 (List.replicate 32 (0 : Nat)) =
      generateRandomString 32 (List.replicate 24 (0 : Nat) ++ List.replicate 8 (255 : Nat)) := by
  constructor
  · decide
  · decide

/-- C6 amended: the code verifier is the unpadded base64url encoding of 96
random bytes (more than the 64 required), 128 characters long with no `=`
padding; the code challenge is base64url of the SHA-256 digest of the
verifier; state and nonce are drawn independently from 32 random bytes
each but truncated to 32 base64url characters, so each is a function of
only the first 24 bytes of its draw (about 24 bytes of entropy, not 32);
and the authorization URL carries exactly the parameters client_id,
response_type=code, scope, redirect_uri, state, nonce, code_challenge and
code_challenge_method=S256. -/
theorem C6_create_auth_url_amended :
    (∀ bs : List Nat, bs.length = 96 →
      (generateCodeVerifier bs).length = 128 ∧ '=' ∉ generateCodeVerifier bs) ∧
    (∀ (sha256 : List Char → List Nat) (v : List Char),
      generateCodeChallenge sha256 v = base64urlEncode (sha256 v)) ∧
    (∀ bs : List Nat, bs.length = 32 →
      generateRandomString 32 bs = base64urlEncode (bs.take 24) ∧
      (generateRandomString 32 bs).length = 32 ∧
      '=' ∉ generateRandomString 32 bs) ∧
    (∀ (sha256 : List Char → List Nat) (vb sb nb : List Nat) (cid sco ru : String),
      (createAuthUrlParams sha256 vb sb nb cid sco ru).map Prod.fst =
        ["client_id", "response_type", "scope", "redirect_uri", "state", "nonce",
         "code_challenge", "code_challenge_method"] ∧
      ("response_type", "code") ∈ createAuthUrlParams sha256 vb sb nb cid sco ru ∧
      ("code_challenge_method", "S256") ∈ createAuthUrlParams sha256 vb sb nb cid sco ru ∧
      ("code_challenge",
        String.mk (generateCodeChallenge sha256 (generateCodeVerifier vb))) ∈
          createAuthUrlParams sha256 vb sb nb cid sco ru ∧
      ("state", String.mk (generateRandomString 32 sb)) ∈
          createAuthUrlParams sha256 vb sb nb cid sco ru ∧
      ("nonce", String.mk (generateRandomString 32 nb)) ∈
          createAuthUrlParams sha256 vb sb nb cid sco ru) := by
  refine ⟨?_, ?_, ?_, ?_⟩
  · intro bs h
    have h3 : bs.length % 3 = 0 := by rw [h]
    constructor
    · rw [generateCodeVerifier, base64urlEncode_length bs h3, h]
    · exact base64urlEncode_no_pad bs
  · intro sha256 v
    rfl
  · intro bs h
    have heq := generateRandomString_take24 bs h
    have hlen : (bs.take 24).length = 24 := by
      rw [List.length_take, h]
      rfl
    refine ⟨heq, ?_, ?_⟩
    · rw [heq, base64urlEncode_length _ (by rw [hlen]), hlen]
    · rw [heq]
      exact base64urlEncode_no_pad _
  · intro sha256 vb sb nb cid sco ru
    refine ⟨rfl, ?_, ?_, ?_, ?_, ?_⟩ <;> simp [createAuthUrlParams]

/-- C6 witness: concrete draws — 96 zero bytes for the verifier, the
byte list 0..31 for the state — instantiating the amended theorem. -/
theorem C6_create_auth_url_amended_witness :
    (generateCodeVerifier (List.replicate 96 (0 : Nat))).length = 128 ∧
    generateRandomString 32 (List.range 32) =
      base64urlEncode ((List.range 32).take 24) :=
  ⟨(C6_create_auth_url_amended.1 (List.replicate 96 (0 : Nat)) (by decide)).1,
   (C6_create_auth_url_amended.2.2.1 (List.range 32) (by decide)).1⟩

/-- C8 counterexample: a model that is found in the mapping table with an
empty-string target does not return its target — the empty string is
falsy, so the lookup result is discarded and the default branch answers
instead ("oca/gpt-4.1" here, with no default configured). -/
theorem C8_empty_mapping_counterexample :
    (ProxyCfgModel.model_mapping
        ⟨fun x => if x = "gpt-x" then some (.str "") else none, none, none⟩ "gpt-x" =
      some (.str "")) ∧
    resolveModelMapping
        ⟨fun x => if x = "gpt-x" then some (.str "") else none, none, none⟩ "gpt-x" =
      ⟨"oca/gpt-4.1", none⟩ ∧
    resolveModelMapping
        ⟨fun x => if x = "gpt-x" then some (.str "") else none, none, none⟩ "gpt-x" ≠
      ⟨"", none⟩ := by
  refine ⟨by simp, by decide, by decide⟩

/-- C8 amended: model resolution is the pure three-step function of the
claim, with one truthiness caveat: an "oca/"-prefixed model passes through
unchanged with no reasoning effort; a model found in the table with a
truthy (nonempty) string entry returns that target with no effort, and an
object entry returns both its target and its reasoning effort; otherwise —
including the case of a falsy empty-string table entry — the configured
default model and default reasoning effort are returned, the model falling
back to the hardcoded "oca/gpt-4.1" when no default (or an empty one) is
configured. -/
theorem C8_model_resolution_amended (cfg : ProxyCfgModel) (m : String) :
    (jsStartsWith m "oca/" = true →
      resolveModelMapping cfg m = ⟨m, none⟩) ∧
    (jsStartsWith m "oca/" = false →
      (∀ s : String, cfg.model_mapping m = some (.str s) → s ≠ "" →
        resolveModelMapping cfg m = ⟨s, none⟩) ∧
      (cfg.model_mapping m = some (.str "") →
        resolveModelMapping cfg m = resolveDefault cfg) ∧
      (∀ o : ModelMappingObj, cfg.model_mapping m = some (.obj o) →
        resolveModelMapping cfg m = ⟨o.target, o.reasoning_effort⟩) ∧
      (cfg.model_mapping m = none →
        resolveModelMapping cfg m = resolveDefault cfg ∧
        (resolveModelMapping cfg m).reasoning_effort = cfg.default_reasoning_effort ∧
        (cfg.default_model = none →
          (resolveModelMapping cfg m).model = DEFAULT_OCA_MODEL))) := by
  constructor
  · intro hp
    rw [resolveModelMapping, if_pos hp]
  · intro hp
    refine ⟨?_, ?_, ?_, ?_⟩
    · intro s hmap hs
      rw [resolveModelMapping, if_neg (by simp [hp]), hmap]
      simp [hs]
    · intro hmap
      rw [resolveModelMapping, if_neg (by simp [hp]), hmap]
      simp
    · intro o hmap
      rw [resolveModelMapping, if_neg (by simp [hp]), hmap]
    · intro hmap
      rw [resolveModelMapping, if_neg (by simp [hp]), hmap]
      refine ⟨rfl, rfl, ?_⟩
      intro hd
      rw [resolveDefault, hd]

/-- C8 witness: a passthrough input, a mapped input with an object entry,
and an unmapped input with no configured default. -/
theorem C8_model_resolution_amended_witness :
    resolveModelMapping
        ⟨fun x => if x = "gpt-4" then some (.obj ⟨"oca/gpt-5", some "high"⟩) else none,
         none, none⟩ "oca/gpt-4.1" = ⟨"oca/gpt-4.1", none⟩ ∧
    resolveModelMapping
        ⟨fun x => if x = "gpt-4" then some (.obj ⟨"oca/gpt-5", some "high"⟩) else none,
         none, none⟩ "gpt-4" = ⟨"oca/gpt-5", some "high"⟩ ∧
    (resolveModelMapping
        ⟨fun x => if x = "gpt-4" then some (.obj ⟨"oca/gpt-5", some "high"⟩) else none,
         none, none⟩ "claude").model = DEFAULT_OCA_MODEL := by
  refine ⟨?_, ?_, ?_⟩
  · exact (C8_model_resolution_amended _ "oca/gpt-4.1").1 (by decide)
  · exact ((C8_model_resolution_amended _ "gpt-4").2 (by decide)).2.2.1
      ⟨"oca/gpt-5", some "high"⟩ (by simp)
  · exact (((C8_model_resolution_amended _ "claude").2 (by decide)).2.2.2 (by simp)).2.2 rfl

/-- The `max_tokens` field of the transcoded request, as a function of the
incoming field: a truthy value is capped at 16384, a falsy one (absent or
zero) is omitted. -/
theorem anthropicToOpenAI_max_tokens (cfg : ProxyCfgModel) (body : AnthRequest) :
    (anthropicToOpenAI cfg body).max_tokens =
      match body.max_tokens with
      | some n => if n = 0 then none else some (min n 16384)
      | none => none := rfl

/-- C9 counterexample: a request carrying the max_tokens value 0 is not
clamped to min(0, 16384) = 0 — the zero is falsy, so the transcoded
request omits the field entirely. -/
theorem C9_max_tokens_zero_counterexample :
    (anthropicToOpenAI ⟨fun _ => none, none, none⟩
        ⟨none, [], none, none, none, some 0, none, none⟩).max_tokens = none ∧
    (anthropicToOpenAI ⟨fun _ => none, none, none⟩
        ⟨none, [], none, none, none, some 0, none, none⟩).max_tokens ≠
      some (min 0 16384) := by
  refine ⟨rfl, by decide⟩

/-- C9 amended: for every request carrying a nonzero max_tokens value n,
the transcoded request carries exactly min(n, 16384) — in particular 50000
is clamped to 16384; a zero or absent max_tokens is omitted; and no
transcoded request ever carries a max_tokens above 16384. -/
theorem C9_max_tokens_clamp_amended (cfg : ProxyCfgModel) (body : AnthRequest) :
    (∀ n : Int, body.max_tokens = some n → n ≠ 0 →
      (anthropicToOpenAI cfg body).max_tokens = some (min n 16384)) ∧
    (body.max_tokens = some 50000 →
      (anthropicToOpenAI cfg body).max_tokens = some 16384) ∧
    (body.max_tokens = none → (anthropicToOpenAI cfg body).max_tokens = none) ∧
    (∀ m : Int, (anthropicToOpenAI cfg body).max_tokens = some m → m ≤ 16384) := by
  refine ⟨?_, ?_, ?_, ?_⟩
  · intro n hn hn0
    rw [anthropicToOpenAI_max_tokens, hn]
    simp [hn0]
  · intro hn
    rw [anthropicToOpenAI_max_tokens, hn]
    norm_num
  · intro hn
    rw [anthropicToOpenAI_max_tokens, hn]
  · intro m hm
    rw [anthropicToOpenAI_max_tokens] at hm
    rcases hmt : body.max_tokens with _ | n
    · rw [hmt] at hm
      exact absurd hm (by simp)
    · rw [hmt] at hm
      by_cases h0 : n = 0
      · simp [h0] at hm
      · simp [h0] at hm
        rw [← hm]
        exact min_le_right n 16384

/-- C9 witness: max_tokens 50000 is clamped to 16384, 1000 passes
unchanged. -/
theorem C9_max_tokens_clamp_amended_witness :
    (anthropicToOpenAI ⟨fun _ => none, none, none⟩
        ⟨none, [], none, none, none, some 50000, none, none⟩).max_tokens = some 16384 ∧
    (anthropicToOpenAI ⟨fun _ => none, none, none⟩
        ⟨none, [], none, none, none, some 1000, none, none⟩).max_tokens = some (min 1000 16384) :=
  ⟨(C9_max_tokens_clamp_amended ⟨fun _ => none, none, none⟩
      ⟨none, [], none, none, none, some 50000, none, none⟩).2.1 rfl,
   (C9_max_tokens_clamp_amended ⟨fun _ => none, none, none⟩
      ⟨none, [], none, none, none, some 1000, none, none⟩).1 1000 rfl (by decide)⟩

/-- C2 counterexample: the upstream sequence delta "Hi", delta " there",
finish_reason "stop", [DONE] does not produce the claimed seven-event
sequence ending in a single message_stop — the transcoder does not
terminate at finish_reason, so the [DONE] line emits a second
message_stop. -/
theorem C2_stream_sequence_counterexample :
    streamAnthropicResponseItems "msg_1" "oca/gpt-4.1"
        [.chunk ⟨[⟨some ⟨some "Hi", none⟩, none⟩], none⟩,
         .chunk ⟨[⟨some ⟨some " there", none⟩, none⟩], none⟩,
         .chunk ⟨[⟨some ⟨none, none⟩, some "stop"⟩], none⟩,
         .done] ≠
      [.message_start "msg_1" "oca/gpt-4.1",
       .content_block_start_text 0,
       .content_block_delta_text 0 "Hi",
       .content_block_delta_text 0 " there",
       .content_block_stop 0,
       .message_delta "end_turn" 0,
       .message_stop] := by
  decide

/-- C2 amended: the example sequence yields message_start,
content_block_start(text), the two text deltas, content_block_stop,
message_delta(end_turn) and message_stop, followed by one additional
message_stop emitted by the [DONE] line; in general a truthy finish_reason
appends content_block_stop, a message_delta carrying the translated stop
reason (tool_calls → tool_use, stop → end_turn, anything else unchanged)
and the output token count from the usage payload of that same chunk (0
when absent), and a message_stop — but the transcoder keeps consuming and
terminates only at [DONE], which emits the extra message_stop. -/
theorem C2_stream_sequence_amended :
    streamAnthropicResponseItems "msg_1" "oca/gpt-4.1"
        [.chunk ⟨[⟨some ⟨some "Hi", none⟩, none⟩], none⟩,
         .chunk ⟨[⟨some ⟨some " there", none⟩, none⟩], none⟩,
         .chunk ⟨[⟨some ⟨none, none⟩, some "stop"⟩], none⟩,
         .done] =
      [.message_start "msg_1" "oca/gpt-4.1",
       .content_block_start_text 0,
       .content_block_delta_text 0 "Hi",
       .content_block_delta_text 0 " there",
       .content_block_stop 0,
       .message_delta "end_turn" 0,
       .message_stop,
       .message_stop] ∧
    (∀ (st : SState) (c : ChunkData) (fr : String),
      (c.choices.head?).bind (·.finish_reason) = some fr → ¬fr = "" →
      ∃ pre, (processChunk st c).2 =
        pre ++
          [.content_block_stop (processChunk st c).1.contentBlockIndex,
           .message_delta (translateFinish fr) ((c.usage.bind (·.completion_tokens)).getD 0),
           .message_stop]) ∧
    translateFinish "stop" = "end_turn" ∧
    translateFinish "tool_calls" = "tool_use" ∧
    (∀ fr : String, fr ≠ "stop" → fr ≠ "tool_calls" → translateFinish fr = fr) := by
  refine ⟨by decide, processChunk_finish_suffix, by decide, by decide, ?_⟩
  intro fr h1 h2
  simp [translateFinish, h1, h2]

/-- C2 witness: a chunk carrying finish_reason "length" and a usage of 7
completion tokens, fed to the finish handling from the initial state. -/
theorem C2_stream_sequence_amended_witness :
    ∃ pre, (processChunk initSState ⟨[⟨none, some "length"⟩], some ⟨none, some 7⟩⟩).2 =
      pre ++
        [.content_block_stop
          (processChunk initSState ⟨[⟨none, some "length"⟩], some ⟨none, some 7⟩⟩).1.contentBlockIndex,
         .message_delta (translateFinish "length")
           (((⟨[⟨none, some "length"⟩], some ⟨none, some 7⟩⟩ : ChunkData).usage.bind
             (·.completion_tokens)).getD 0),
         .message_stop] :=
  C2_stream_sequence_amended.2.1 initSState ⟨[⟨none, some "length"⟩], some ⟨none, some 7⟩⟩
    "length" rfl (by decide)

/-- C4 counterexample: the same upstream byte stream — one data line
whose content carries the two-byte character U+00E9 (0xC3 0xA9) — split
once as a whole chunk and once with the chunk boundary between 0xC3 and
0xA9, produces different event sequences.  The loop decodes each chunk
independently (`buffer += chunk.toString()`), so the cut turns the
character into two U+FFFD replacement characters and the emitted
text_delta differs: byte-level re-chunking invariance fails on the code.
`c4Parse` is `JSON.parse` on the two documents in play. -/
theorem C4_utf8_split_counterexample :
    [c4BytesWhole].flatten = [c4BytesCut1, c4BytesCut2].flatten ∧
    streamAnthropicResponseBytes c4Parse "m" "mod" [c4BytesWhole] =
      [.message_start "m" "mod", .content_block_start_text 0,
       .content_block_delta_text 0 "\u00E9"] ∧
    streamAnthropicResponseBytes c4Parse "m" "mod" [c4BytesCut1, c4BytesCut2] =
      [.message_start "m" "mod", .content_block_start_text 0,
       .content_block_delta_text 0 "\uFFFD\uFFFD"] ∧
    streamAnthropicResponseBytes c4Parse "m" "mod" [c4BytesWhole] ≠
      streamAnthropicResponseBytes c4Parse "m" "mod" [c4BytesCut1, c4BytesCut2] := by
  refine ⟨by decide, by decide, by decide, by decide⟩

/-- C4 amended: (1) the transcoder's output depends only on the decoded
character stream: any two re-chunkings of the byte stream whose per-chunk
UTF-8 decodes concatenate to the same character sequence — in particular
any two splits at character boundaries — yield the same event sequence,
because a trailing partial line is carried unconsumed into the next
chunk; a split inside a multi-byte character changes the decoded stream
(each chunk is decoded separately, so the severed sequence becomes
U+FFFD) and with it the output, see the counterexample; (2) the emitted
text_delta fragments are exactly the upstream content fragments, in order
and verbatim, up to the [DONE] sentinel, so their concatenation
reconstructs the decoded upstream text; (3) a tool call whose argument
fragments arrive in three consecutive chunks is reassembled into one
input_json_delta sequence with no fragment dropped or reordered. -/
theorem C4_stream_chunking_amended :
    (∀ (parse : List Char → Option ChunkData) (msgId model : String)
        (chunks1 chunks2 : List (List Nat)),
      (chunks1.map utf8Decode).flatten = (chunks2.map utf8Decode).flatten →
      streamAnthropicResponseBytes parse msgId model chunks1 =
        streamAnthropicResponseBytes parse msgId model chunks2) ∧
    (∀ (msgId model : String) (items : List SSEItem),
      (streamAnthropicResponseItems msgId model items).filterMap textDeltaOf =
        (items.takeWhile fun i => !isDone i).filterMap itemText) ∧
    (∀ (msgId model tid name a1 a2 a3 : String),
      ¬tid = "" → ¬a1 = "" → ¬a2 = "" → ¬a3 = "" →
      streamAnthropicResponseItems msgId model
          [.chunk ⟨[⟨some ⟨none, some [⟨some tid, some name, some a1⟩]⟩, none⟩], none⟩,
           .chunk ⟨[⟨some ⟨none, some [⟨none, none, some a2⟩]⟩, none⟩], none⟩,
           .chunk ⟨[⟨some ⟨none, some [⟨none, none, some a3⟩]⟩, none⟩], none⟩,
           .chunk ⟨[⟨none, some "tool_calls"⟩], none⟩,
           .done] =
        [.message_start msgId model,
         .content_block_start_tool 0 tid name,
         .content_block_delta_json 0 a1,
         .content_block_delta_json 0 a2,
         .content_block_delta_json 0 a3,
         .content_block_stop 0,
         .message_delta "tool_use" 0,
         .message_stop,
         .message_stop]) := by
  refine ⟨?_, ?_, ?_⟩
  · intro parse msgId model chunks1 chunks2 hflat
    rw [streamAnthropicResponseBytes, streamAnthropicResponseBytes,
      streamAnthropicResponse, streamAnthropicResponse,
      linesOfChunks_eq (chunks1.map utf8Decode) [] (by simp),
      linesOfChunks_eq (chunks2.map utf8Decode) [] (by simp),
      List.nil_append, List.nil_append, hflat]
  · intro msgId model items
    rw [streamAnthropicResponseItems, List.filterMap_cons]
    simp only [textDeltaOf]
    exact processItems_textDeltas items initSState
  · intro msgId model tid name a1 a2 a3 htid ha1 ha2 ha3
    simp [streamAnthropicResponseItems, processItems, processChunk, processDelta,
      processToolCallDelta, initSState, translateFinish, htid, ha1, ha2, ha3]

/-- C4 witness: the ASCII byte stream "data: x\n\n" split as one chunk
versus split into three chunks (all cuts at character boundaries) gives
identical output for any parse function (here the one rejecting every
payload), and a concrete three-chunk tool call with id "t1", name "f" and
fragments "x", "y", "z" is reassembled. -/
theorem C4_stream_chunking_amended_witness :
    streamAnthropicResponseBytes (fun _ => none) "m" "mod"
        [asciiBytes "data: x\n\n"] =
      streamAnthropicResponseBytes (fun _ => none) "m" "mod"
        [asciiBytes "dat", asciiBytes "a: x", asciiBytes "\n\n"] ∧
    streamAnthropicResponseItems "m" "mod"
        [.chunk ⟨[⟨some ⟨none, some [⟨some "t1", some "f", some "x"⟩]⟩, none⟩], none⟩,
         .chunk ⟨[⟨some ⟨none, some [⟨none, none, some "y"⟩]⟩, none⟩], none⟩,
         .chunk ⟨[⟨some ⟨none, some [⟨none, none, some "z"⟩]⟩, none⟩], none⟩,
         .chunk ⟨[⟨none, some "tool_calls"⟩], none⟩,
         .done] =
      [.message_start "m" "mod",
       .content_block_start_tool 0 "t1" "f",
       .content_block_delta_json 0 "x",
       .content_block_delta_json 0 "y",
       .content_block_delta_json 0 "z",
       .content_block_stop 0,
       .message_delta "tool_use" 0,
       .message_stop,
       .message_stop] :=
  ⟨C4_stream_chunking_amended.1 (fun _ => none) "m" "mod"
      [asciiBytes "data: x\n\n"]
      [asciiBytes "dat", asciiBytes "a: x", asciiBytes "\n\n"] (by decide),
   C4_stream_chunking_amended.2.2 "m" "mod" "t1" "f" "x" "y" "z"
      (by decide) (by decide) (by decide) (by decide)⟩

/-- C10: for an upstream stream whose data lines are any done-free items
followed by the [DONE] sentinel, the non-streaming path returns a message
whose content is exactly one text block holding the in-order concatenation
of all truthy delta.content fragments; tool-call deltas never contribute
to the content (a chunk without a truthy content fragment leaves the
accumulator unchanged whatever its tool_calls carry); and the stop reason
is the last truthy finish_reason translated only for "stop" (to
"end_turn") — any other value, including "tool_calls", is kept verbatim —
defaulting to "end_turn" when no finish_reason was seen. -/
theorem C10_nonstreaming_aggregation (msgId model : String) (items : List SSEItem)
    (hnd : ∀ i ∈ items, isDone i = false) :
    (nonStreamingMessage msgId model (items ++ [.done])).content =
      [.text ((items.filterMap itemTextAgg).foldl (· ++ ·) "")] ∧
    (nonStreamingMessage msgId model (items ++ [.done])).stop_reason =
      (items.filterMap itemFinish).foldl (fun _ fr => aggTranslate fr) "end_turn" ∧
    aggTranslate "stop" = "end_turn" ∧
    aggTranslate "tool_calls" = "tool_calls" ∧
    (∀ fr : String, fr ≠ "stop" → aggTranslate fr = fr) ∧
    (∀ (st : AggState) (c : ChunkData), itemTextAgg (.chunk c) = none →
      (aggProcessChunk st c).fullContent = st.fullContent) := by
  refine ⟨?_, ?_, by decide, by decide, ?_, ?_⟩
  · rw [nonStreamingMessage, aggProcessLines_append_done items initAggState hnd,
      buildAnthMessage]
    rw [aggProcessLines_content items initAggState hnd]
    rfl
  · rw [nonStreamingMessage, aggProcessLines_append_done items initAggState hnd,
      buildAnthMessage]
    rw [aggProcessLines_finish items initAggState hnd]
    rfl
  · intro fr h
    simp [aggTranslate, h]
  · intro st c h
    rw [aggProcessChunk_content st c, h]

/-- C10 witness: the stream "Hi", " there", finish_reason "stop" with a
usage payload, then [DONE], aggregates to one text block "Hi there" with
stop reason "end_turn"; a tool-calls finish is kept verbatim. -/
theorem C10_nonstreaming_aggregation_witness :
    (nonStreamingMessage "m" "mod"
        ([.chunk ⟨[⟨some ⟨some "Hi", none⟩, none⟩], none⟩,
          .chunk ⟨[⟨some ⟨some " there", none⟩, none⟩], none⟩,
          .chunk ⟨[⟨some ⟨none, none⟩, some "stop"⟩], some ⟨some 3, some 7⟩⟩] ++
          [.done])).content = [.text "Hi there"] ∧
    (nonStreamingMessage "m" "mod"
        ([.chunk ⟨[⟨some ⟨some "Hi", none⟩, none⟩], none⟩,
          .chunk ⟨[⟨some ⟨some " there", none⟩, none⟩], none⟩,
          .chunk ⟨[⟨some ⟨none, none⟩, some "stop"⟩], some ⟨some 3, some 7⟩⟩] ++
          [.done])).stop_reason = "end_turn" ∧
    (nonStreamingMessage "m" "mod"
        ([.chunk ⟨[⟨none, some "tool_calls"⟩], none⟩] ++ [.done])).stop_reason =
      "tool_calls" :=
  ⟨(C10_nonstreaming_aggregation "m" "mod"
      [.chunk ⟨[⟨some ⟨some "Hi", none⟩, none⟩], none⟩,
       .chunk ⟨[⟨some ⟨some " there", none⟩, none⟩], none⟩,
       .chunk ⟨[⟨some ⟨none, none⟩, some "stop"⟩], some ⟨some 3, some 7⟩⟩]
      (by decide)).1,
   (C10_nonstreaming_aggregation "m" "mod"
      [.chunk ⟨[⟨some ⟨some "Hi", none⟩, none⟩], none⟩,
       .chunk ⟨[⟨some ⟨some " there", none⟩, none⟩], none⟩,
       .chunk ⟨[⟨some ⟨none, none⟩, some "stop"⟩], some ⟨some 3, some 7⟩⟩]
      (by decide)).2.1,
   (C10_nonstreaming_aggregation "m" "mod"
      [.chunk ⟨[⟨none, some "tool_calls"⟩], none⟩] (by decide)).2.1⟩
